import Mathlib

/-!
# Timed command-line quiz: a shallow embedding of `main.go`

The Go program reads question/answer records, shuffles them, keeps the first
five (or fewer), asks them under one session-wide timer and prints a score.

Modelling choices, each stated where it is used:

* a Go slice is a `List`; Go `int` counters are `Nat` (they only count up from
  zero and stay below the slice length, far from any overflow);
* the random source is a function `draw : Nat → Nat`, the value returned by the
  `i`-th call of `r.Intn(len(problems))`;
* the race of the `select` statement is resolved by the environment: `ev i` is
  the event taken by the `select` of loop iteration `i`;
* everything printed is collected, one entry per `Printf`/`Println` call;
* the unbuffered channel `answerCh` is tracked by whether it is closed and by
  the number of reader goroutines whose send has not been received.
-/

namespace Quiz

/-! ## Data model -/

/-- A single quiz question and its answer (`type problem struct`). -/
structure Problem where
  question : String
  answer : String
  deriving DecidableEq, Repr, Inhabited

/-- The zero value of `problem`, as produced by `make([]problem, n)`. -/
def Problem.zero : Problem := { question := "", answer := "" }

/-! ## `parseProblem` -/

/-- One iteration of the loop of `parseProblem`: a record whose length is not 2
is skipped (`continue`), otherwise slot `i` of `r` is overwritten. -/
def parseStep (r : List Problem) (entry : Nat × List String) : List Problem :=
  if entry.2.length ≠ 2 then r
  else r.set entry.1 { question := entry.2.getD 0 "", answer := entry.2.getD 1 "" }

/-- Model of `parseProblem`: allocate `len(lines)` zero problems, then run the
loop over `i, line := range lines`. -/
def parseProblem (lines : List (List String)) : List Problem :=
  lines.enum.foldl parseStep (List.replicate lines.length Problem.zero)

/-! ## `randomizeProblems` -/

/-- The Go statement `xs[i], xs[j] = xs[j], xs[i]`: both right-hand sides are read
first, then slot `i` and slot `j` are written in that order.  An index outside the
slice (which `r.Intn` never returns) leaves the list unchanged. -/
def swapAt {α : Type} (xs : List α) (i j : Nat) : List α :=
  match xs[i]?, xs[j]? with
  | some a, some b => (xs.set i b).set j a
  | _, _ => xs

/-- Model of `randomizeProblems`: for `i` over `range problems`, draw
`j := r.Intn(len(problems))` (here `draw i`) and swap slots `i` and `j`. -/
def randomizeProblems (problems : List Problem) (draw : Nat → Nat) : List Problem :=
  (List.range problems.length).foldl (fun ps i => swapAt ps i (draw i)) problems

/-! ## The quiz session of `main` -/

/-- The event taken by one `select` statement of the problem loop. -/
inductive Event where
  /-- The branch `case <-tObj.C` is taken. -/
  | timerFired : Event
  /-- The branch `case answer = <-answerCh` is taken with this answer. -/
  | answered (answer : String) : Event
  deriving DecidableEq, Repr

/-- State of the problem loop of `main`. -/
structure Session where
  /-- Loop index `i`: the number of iterations completed through the answer branch. -/
  i : Nat
  /-- The variable `correctCount`. -/
  correctCount : Nat
  /-- Everything printed so far, one entry per print call. -/
  out : List String
  /-- Whether `close(answerCh)` has been executed. -/
  closed : Bool
  /-- Reader goroutines started whose send on `answerCh` has not been received. -/
  readers : Nat
  /-- Whether the loop was left through `break problemLoop`. -/
  timedOut : Bool
  deriving DecidableEq, Repr

/-- The state at line 76-78 of `main`, before the loop. -/
def Session.init : Session :=
  { i := 0, correctCount := 0, out := [], closed := false, readers := 0, timedOut := false }

/-- The text printed by `fmt.Printf("Problem #%d: %s = ", i+1, p.question)`. -/
def promptLine (i : Nat) (p : Problem) : String :=
  "Problem #" ++ toString (i + 1) ++ ": " ++ p.question ++ " = "

/-- The text printed by `fmt.Printf("Wrong! The correct answer is %s\n", p.answer)`. -/
def wrongLine (p : Problem) : String :=
  "Wrong! The correct answer is " ++ p.answer ++ "\n"

/-- The text printed by `fmt.Printf("You scored %d out of %d\n", correctCount, questionsToAsk)`. -/
def scoreLine (correctCount questionsToAsk : Nat) : String :=
  "You scored " ++ toString correctCount ++ " out of " ++ toString questionsToAsk ++ "\n"

/-- The text printed by `fmt.Printf("Press Enter to exit...\n")`. -/
def pressEnterLine : String := "Press Enter to exit...\n"

/-- The grading step (lines 96-100): exact string comparison of the received
answer with `p.answer`. -/
def grade (p : Problem) (answer : String) (s : Session) : Session :=
  if answer = p.answer then { s with correctCount := s.correctCount + 1 }
  else { s with out := s.out ++ [wrongLine p] }

/-- One iteration of `for i, p := range selectedProblems` (lines 81-107).
`none` means the loop is over: either `break problemLoop` was executed or the
range is exhausted. -/
def step (selected : List Problem) (ev : Nat → Event) (s : Session) : Option Session :=
  if s.timedOut then none
  else
    match selected[s.i]? with
    | none => none
    | some p =>
      -- the prompt is printed and the reader goroutine is started
      let s1 : Session := { s with out := s.out ++ [promptLine s.i p], readers := s.readers + 1 }
      match ev s.i with
      | Event.timerFired =>
        -- fmt.Println(); break problemLoop
        some { s1 with out := s1.out ++ ["\n"], timedOut := true }
      | Event.answered a =>
        -- the value sent by the reader goroutine is received
        let s2 : Session := { s1 with readers := s1.readers - 1 }
        let s3 := grade p a s2
        let s4 : Session := if s.i = selected.length - 1 then { s3 with closed := true } else s3
        some { s4 with i := s.i + 1 }

/-- The problem loop: at most `fuel` iterations of `step`. -/
def runLoop (selected : List Problem) (ev : Nat → Event) : Nat → Session → Session
  | 0, s => s
  | fuel + 1, s =>
    match step selected ev s with
    | none => s
    | some s' => runLoop selected ev fuel s'

/-- The problem loop of `main`; a range loop over `selected` runs at most
`selected.length` iterations. -/
def problemLoop (selected : List Problem) (ev : Nat → Event) : Session :=
  runLoop selected ev selected.length Session.init

/-- What the final receive `<-answerCh` (line 112) does. -/
inductive ExitWait where
  /-- The channel is closed: the receive returns at once, no input is consumed. -/
  | returnsAtOnce : ExitWait
  /-- A reader goroutine is still waiting for a line: the receive completes when
  one more line of input is delivered. -/
  | waitsForLine : ExitWait
  /-- The channel is open and no goroutine will ever send: the receive never completes. -/
  | blocksForever : ExitWait
  deriving DecidableEq, Repr

/-- Go semantics of a receive on `answerCh` in state `s`. -/
def finalReceive (s : Session) : ExitWait :=
  if s.closed then ExitWait.returnsAtOnce
  else if 0 < s.readers then ExitWait.waitsForLine
  else ExitWait.blocksForever

/-- The variable `questionsToAsk` (lines 70-73). -/
def questionsToAsk (problems : List Problem) : Nat :=
  if problems.length < 5 then problems.length else 5

/-- The slice `selectedProblems` (lines 67-74): shuffle, then keep the first
`questionsToAsk` problems. -/
def selectedProblems (problems : List Problem) (draw : Nat → Nat) : List Problem :=
  let shuffled := randomizeProblems problems draw
  shuffled.take (questionsToAsk shuffled)

/-- Result of a run of `main` after a successful `problemPuller`. -/
structure Outcome where
  /-- The slice `selectedProblems` asked in this round. -/
  selected : List Problem
  /-- Final value of `correctCount`. -/
  correctCount : Nat
  /-- Number of answers received in the loop (the final loop index). -/
  answeredCount : Nat
  /-- Everything printed, in order, one entry per print call. -/
  out : List String
  /-- Behaviour of the last statement `<-answerCh`. -/
  exitWait : ExitWait
  deriving DecidableEq, Repr

/-- Model of `main` from line 66 on, for a problem set returned by `problemPuller`. -/
def main (problems : List Problem) (draw : Nat → Nat) (ev : Nat → Event) : Outcome :=
  -- randomizeProblems(problems) shuffles in place
  let problems := randomizeProblems problems draw
  let n := questionsToAsk problems
  let selected := problems.take n
  let s := problemLoop selected ev
  { selected := selected
    correctCount := s.correctCount
    answeredCount := s.i
    out := s.out ++ [scoreLine s.correctCount n, pressEnterLine]
    exitWait := finalReceive s }

/-! ## Reference descriptions used in the statements -/

/-- What the specification asks of one record: a record of exactly two fields
becomes the problem made of them, any other record the blank problem. -/
def problemOfRecord : List String → Problem
  | [q, a] => { question := q, answer := a }
  | _ => { question := "", answer := "" }

/-- The shuffle loop run on an arbitrary list for `n` rounds. -/
def shuffleLoop {α : Type} (draw : Nat → Nat) (n : Nat) (xs : List α) : List α :=
  (List.range n).foldl (fun ys i => swapAt ys i (draw i)) xs

/-- Whether the event taken at question `i` is an answer equal to the expected one. -/
def isCorrectAt (selected : List Problem) (ev : Nat → Event) (i : Nat) : Bool :=
  match selected[i]? with
  | some p => decide (ev i = Event.answered p.answer)
  | none => false

/-- Number of questions among the first `k` whose supplied answer equals the expected answer. -/
def countCorrect (selected : List Problem) (ev : Nat → Event) (k : Nat) : Nat :=
  ((List.range k).filter (isCorrectAt selected ev)).length

/-- What an answered question `i` contributes to the terminal: its prompt, followed
by the correction line unless the answer is the expected one. -/
def linesAt (selected : List Problem) (ev : Nat → Event) (i : Nat) : List String :=
  match selected[i]? with
  | some p => promptLine i p :: (if ev i = Event.answered p.answer then [] else [wrongLine p])
  | none => []

/-- Terminal contents after the first `k` questions have been answered. -/
def transcript (selected : List Problem) (ev : Nat → Event) (k : Nat) : List String :=
  (List.range k).flatMap (linesAt selected ev)

/-- The loop state expected after `k` questions have been answered. -/
def answeredState (selected : List Problem) (ev : Nat → Event) (k : Nat) : Session :=
  { i := k
    correctCount := countCorrect selected ev k
    out := transcript selected ev k
    closed := decide (k = selected.length ∧ 0 < k)
    readers := 0
    timedOut := false }

/-- The loop state expected when the timer is taken while question `k` (holding
problem `p`) awaits its answer. -/
def timedOutState (selected : List Problem) (ev : Nat → Event) (k : Nat) (p : Problem) : Session :=
  { i := k
    correctCount := countCorrect selected ev k
    out := transcript selected ev k ++ [promptLine k p, "\n"]
    closed := false
    readers := 1
    timedOut := true }

/-- The draw function given by a finite table of in-range draws. -/
def drawsOf {n : Nat} (d : Fin n → Fin n) : Nat → Nat :=
  fun i => if h : i < n then (d ⟨i, h⟩).val else 0

/-- Number of draw tables (out of the `N ^ N` equally likely ones) for which
`randomizeProblems` turns `problems` into the arrangement `target`. -/
def shuffleCount (problems target : List Problem) : Nat :=
  (Finset.univ.filter
    (fun d : Fin problems.length → Fin problems.length =>
      randomizeProblems problems (drawsOf d) = target)).card

/-- The five records of the end-to-end example. -/
def quizFile : List Problem :=
  [⟨"2+2", "4"⟩, ⟨"3+3", "6"⟩, ⟨"5+5", "10"⟩, ⟨"1+1", "2"⟩, ⟨"9+9", "18"⟩]

/-- A sample sequence of in-range draws for five problems; it presents the
records in the order 1+1, 9+9, 5+5, 2+2, 3+3. -/
def sampleDraw : Nat → Nat := fun i => (3 * i + 1) % 5

/-- Events of a session in which every question is answered by the given lines. -/
def answering (lines : List String) : Nat → Event :=
  fun i => Event.answered (lines.getD i "")

/-- Events of a session answered by the given lines until the timer is taken at
question `k`. -/
def timerAt (k : Nat) (lines : List String) : Nat → Event :=
  fun i => if i = k then Event.timerFired else Event.answered (lines.getD i "")

/-- Three pairwise distinct problems. -/
def threeProblems : List Problem := [⟨"a", "1"⟩, ⟨"b", "2"⟩, ⟨"c", "3"⟩]

/-! ## Lemmas

### `parseProblem` -/

theorem parseStep_append (done : List Problem) (line : List String) (tail : List Problem) :
    parseStep (done ++ Problem.zero :: tail) (done.length, line)
      = done ++ problemOfRecord line :: tail := by
  unfold parseStep
  by_cases h : line.length = 2
  · have h2 : ¬ (line.length ≠ 2) := by simp [h]
    simp only [h2, if_false]
    match line, h with
    | [q, a], _ => simp [problemOfRecord]
  · simp only [ne_eq, h, not_false_eq_true, if_true]
    have : problemOfRecord line = Problem.zero := by
      match line, h with
      | [], _ => rfl
      | [_], _ => rfl
      | [_, _], h => exact absurd rfl h
      | _ :: _ :: _ :: _, _ => rfl
    rw [this]

theorem foldl_parseStep (rest : List (List String)) :
    ∀ done : List Problem,
      (rest.enumFrom done.length).foldl parseStep
          (done ++ List.replicate rest.length Problem.zero)
        = done ++ rest.map problemOfRecord := by
  induction rest with
  | nil => intro done; simp
  | cons line rest ih =>
    intro done
    simp only [List.enumFrom_cons, List.foldl_cons, List.length_cons, List.replicate_succ,
      List.map_cons]
    rw [parseStep_append]
    have := ih (done ++ [problemOfRecord line])
    simp only [List.length_append, List.length_singleton, List.append_assoc,
      List.singleton_append] at this
    exact this

theorem parseProblem_eq_map (lines : List (List String)) :
    parseProblem lines = lines.map problemOfRecord := by
  have := foldl_parseStep lines []
  simpa [parseProblem, List.enum] using this

/-! ### The shuffle -/

theorem swapAt_length {α : Type} (xs : List α) (i j : Nat) :
    (swapAt xs i j).length = xs.length := by
  unfold swapAt
  split <;> simp

theorem swapAt_map {α β : Type} (f : α → β) (xs : List α) (i j : Nat) :
    swapAt (xs.map f) i j = (swapAt xs i j).map f := by
  unfold swapAt
  rcases hi : xs[i]? with _ | a <;> rcases hj : xs[j]? with _ | b <;>
    simp [hi, hj, List.map_set]

theorem set_set_eq_ofFn {α : Type} (xs : List α) (i j : Nat) (hi : i < xs.length)
    (hj : j < xs.length) :
    (xs.set i xs[j]).set j xs[i]
      = List.ofFn (fun k : Fin xs.length => xs.get (Equiv.swap ⟨i, hi⟩ ⟨j, hj⟩ k)) := by
  apply List.ext_getElem
  · simp
  · intro k h1 h2
    have hk : k < xs.length := by simpa using h1
    rw [List.getElem_ofFn]
    simp only [List.getElem_set, Equiv.swap_apply_def, List.get_eq_getElem, Fin.mk.injEq]
    by_cases hkj : j = k
    · subst hkj
      by_cases hki : j = i
      · subst hki; simp
      · simp [hki]
    · by_cases hki : i = k
      · subst hki; simp [hkj]
      · have h3 : ¬ k = i := fun h => hki h.symm
        have h4 : ¬ k = j := fun h => hkj h.symm
        simp [hkj, hki, h3, h4]

theorem swapAt_perm {α : Type} (xs : List α) (i j : Nat) : (swapAt xs i j).Perm xs := by
  unfold swapAt
  split
  · next a b hi hj =>
    obtain ⟨hi', rfl⟩ := List.getElem?_eq_some.1 hi
    obtain ⟨hj', rfl⟩ := List.getElem?_eq_some.1 hj
    rw [set_set_eq_ofFn xs i j hi' hj']
    have := Equiv.Perm.ofFn_comp_perm (Equiv.swap (⟨i, hi'⟩ : Fin xs.length) ⟨j, hj'⟩) xs.get
    rw [List.ofFn_get] at this
    exact this
  · exact List.Perm.refl _

theorem randomizeProblems_eq_shuffleLoop (ps : List Problem) (draw : Nat → Nat) :
    randomizeProblems ps draw = shuffleLoop draw ps.length ps := rfl

theorem shuffleLoop_succ {α : Type} (draw : Nat → Nat) (n : Nat) (xs : List α) :
    shuffleLoop draw (n + 1) xs = swapAt (shuffleLoop draw n xs) n (draw n) := by
  simp [shuffleLoop, List.range_succ]

theorem shuffleLoop_perm {α : Type} (draw : Nat → Nat) (n : Nat) (xs : List α) :
    (shuffleLoop draw n xs).Perm xs := by
  induction n with
  | zero => simp [shuffleLoop]
  | succ n ih => rw [shuffleLoop_succ]; exact (swapAt_perm _ _ _).trans ih

theorem shuffleLoop_map {α β : Type} (f : α → β) (draw : Nat → Nat) (n : Nat) (xs : List α) :
    shuffleLoop draw n (xs.map f) = (shuffleLoop draw n xs).map f := by
  induction n with
  | zero => simp [shuffleLoop]
  | succ n ih => rw [shuffleLoop_succ, shuffleLoop_succ, ih, swapAt_map]

theorem map_getD_range (ps : List Problem) :
    (List.range ps.length).map (fun k => ps.getD k default) = ps := by
  apply List.ext_getElem
  · simp
  · intro k h1 h2
    simp [List.getD_eq_getElem?_getD, h2]

theorem randomizeProblems_length (ps : List Problem) (draw : Nat → Nat) :
    (randomizeProblems ps draw).length = ps.length :=
  (shuffleLoop_perm draw ps.length ps).length_eq

/-! ### The problem loop -/

theorem countCorrect_succ (selected : List Problem) (ev : Nat → Event) (k : Nat) :
    countCorrect selected ev (k + 1)
      = countCorrect selected ev k + (if isCorrectAt selected ev k then 1 else 0) := by
  unfold countCorrect
  rw [List.range_succ, List.filter_append, List.length_append]
  by_cases h : isCorrectAt selected ev k <;> simp [List.filter_cons, h]

theorem transcript_succ (selected : List Problem) (ev : Nat → Event) (k : Nat) :
    transcript selected ev (k + 1) = transcript selected ev k ++ linesAt selected ev k := by
  unfold transcript
  simp [List.range_succ, List.flatMap]

theorem answeredState_zero (selected : List Problem) (ev : Nat → Event) :
    answeredState selected ev 0 = Session.init := by
  simp [answeredState, Session.init, countCorrect, transcript, List.flatMap]

theorem step_answeredState_answered (selected : List Problem) (ev : Nat → Event) (k : Nat)
    (hk : k < selected.length) (he : ev k ≠ Event.timerFired) :
    step selected ev (answeredState selected ev k) = some (answeredState selected ev (k + 1)) := by
  have hp : selected[k]? = some selected[k] := List.getElem?_eq_getElem hk
  cases hev : ev k with
  | timerFired => exact absurd hev he
  | answered a =>
    have hne : ¬ (k = selected.length ∧ 0 < k) := fun h => absurd h.1 (Nat.ne_of_lt hk)
    have hcl : (k = selected.length - 1) ↔ (k + 1 = selected.length) := by omega
    by_cases ha : a = selected[k].answer
    · by_cases h1' : k + 1 = selected.length
      · have h1 : (k + 1 = selected.length) = True := eq_true h1'
        simp [step, answeredState, hp, hev, grade, ha, hcl, countCorrect_succ, transcript_succ,
          isCorrectAt, linesAt, h1]
      · simp [step, answeredState, hp, hev, grade, ha, hcl, countCorrect_succ, transcript_succ,
          isCorrectAt, linesAt, h1', hne]
    · by_cases h1' : k + 1 = selected.length
      · have h1 : (k + 1 = selected.length) = True := eq_true h1'
        simp [step, answeredState, hp, hev, grade, ha, hcl, countCorrect_succ, transcript_succ,
          isCorrectAt, linesAt, h1]
      · simp [step, answeredState, hp, hev, grade, ha, hcl, countCorrect_succ, transcript_succ,
          isCorrectAt, linesAt, h1', hne]

theorem step_answeredState_timer (selected : List Problem) (ev : Nat → Event) (k : Nat)
    (hk : k < selected.length) (he : ev k = Event.timerFired) :
    step selected ev (answeredState selected ev k)
      = some (timedOutState selected ev k selected[k]) := by
  have hp : selected[k]? = some selected[k] := List.getElem?_eq_getElem hk
  have hne : ¬ (k = selected.length ∧ 0 < k) := fun h => absurd h.1 (Nat.ne_of_lt hk)
  simp [step, answeredState, timedOutState, hp, he, hne]

theorem step_timedOutState (selected : List Problem) (ev : Nat → Event) (k : Nat) (p : Problem) :
    step selected ev (timedOutState selected ev k p) = none := by
  simp [step, timedOutState]

theorem step_answeredState_end (selected : List Problem) (ev : Nat → Event) :
    step selected ev (answeredState selected ev selected.length) = none := by
  simp [step, answeredState]

theorem runLoop_of_step_none (selected : List Problem) (ev : Nat → Event) (s : Session)
    (h : step selected ev s = none) (fuel : Nat) : runLoop selected ev fuel s = s := by
  cases fuel with
  | zero => rfl
  | succ n => simp [runLoop, h]

theorem runLoop_of_step_some (selected : List Problem) (ev : Nat → Event) (s s' : Session)
    (h : step selected ev s = some s') (fuel : Nat) :
    runLoop selected ev (fuel + 1) s = runLoop selected ev fuel s' := by
  simp [runLoop, h]

theorem runLoop_answered (selected : List Problem) (ev : Nat → Event) :
    ∀ fuel k : Nat, k + fuel ≤ selected.length →
      (∀ i, k ≤ i → i < k + fuel → ev i ≠ Event.timerFired) →
      runLoop selected ev fuel (answeredState selected ev k)
        = answeredState selected ev (k + fuel) := by
  intro fuel
  induction fuel with
  | zero => intro k _ _; rfl
  | succ n ih =>
    intro k hk hev
    rw [runLoop_of_step_some _ _ _ _
      (step_answeredState_answered selected ev k (by omega) (hev k (Nat.le_refl k) (by omega)))]
    rw [ih (k + 1) (by omega) (fun i h1 h2 => hev i (by omega) (by omega))]
    congr 1
    omega

theorem runLoop_timer (selected : List Problem) (ev : Nat → Event) (k : Nat)
    (hk : k < selected.length) (he : ev k = Event.timerFired) (fuel : Nat) :
    runLoop selected ev (fuel + 1) (answeredState selected ev k)
      = timedOutState selected ev k selected[k] := by
  rw [runLoop_of_step_some _ _ _ _ (step_answeredState_timer selected ev k hk he)]
  exact runLoop_of_step_none _ _ _ (step_timedOutState selected ev k _) fuel

theorem runLoop_add (selected : List Problem) (ev : Nat → Event) :
    ∀ (a b : Nat) (s : Session),
      runLoop selected ev (a + b) s = runLoop selected ev b (runLoop selected ev a s) := by
  intro a
  induction a with
  | zero => intro b s; simp [runLoop]
  | succ n ih =>
    intro b s
    rw [show n + 1 + b = (n + b) + 1 by omega]
    cases h : step selected ev s with
    | none =>
      rw [runLoop_of_step_none _ _ _ h, runLoop_of_step_none _ _ _ h,
        runLoop_of_step_none _ _ _ h]
    | some s' =>
      rw [runLoop_of_step_some _ _ _ _ h, runLoop_of_step_some _ _ _ _ h, ih]

/-- When no timer event is taken, the loop ends in the state "all answered". -/
theorem problemLoop_all_answered (selected : List Problem) (ev : Nat → Event)
    (h : ∀ i, i < selected.length → ev i ≠ Event.timerFired) :
    problemLoop selected ev = answeredState selected ev selected.length := by
  unfold problemLoop
  rw [← answeredState_zero selected ev]
  have := runLoop_answered selected ev selected.length 0 (by omega)
    (fun i _ h2 => h i (by omega))
  simpa using this

/-- When the first timer event is taken at question `k`, the loop ends in the
timed-out state of question `k`. -/
theorem problemLoop_timed_out (selected : List Problem) (ev : Nat → Event) (k : Nat)
    (hk : k < selected.length) (he : ev k = Event.timerFired)
    (h : ∀ i, i < k → ev i ≠ Event.timerFired) :
    problemLoop selected ev = timedOutState selected ev k selected[k] := by
  unfold problemLoop
  rw [← answeredState_zero selected ev]
  rw [show selected.length = k + (selected.length - k - 1 + 1) by omega, runLoop_add]
  have := runLoop_answered selected ev k 0 (by omega) (fun i _ h2 => h i (by omega))
  simp only [Nat.zero_add] at this
  rw [this]
  exact runLoop_timer selected ev k hk he _

/-! ### `main` -/

theorem questionsToAsk_eq_min (ps : List Problem) : questionsToAsk ps = min 5 ps.length := by
  unfold questionsToAsk
  split <;> omega

theorem selectedProblems_eq_take (ps : List Problem) (draw : Nat → Nat) :
    selectedProblems ps draw = (randomizeProblems ps draw).take (min 5 ps.length) := by
  simp [selectedProblems, questionsToAsk_eq_min, randomizeProblems_length]

theorem selectedProblems_length (ps : List Problem) (draw : Nat → Nat) :
    (selectedProblems ps draw).length = min 5 ps.length := by
  rw [selectedProblems_eq_take, List.length_take, randomizeProblems_length]
  omega

theorem main_eq (ps : List Problem) (draw : Nat → Nat) (ev : Nat → Event) :
    main ps draw ev =
      { selected := selectedProblems ps draw
        correctCount := (problemLoop (selectedProblems ps draw) ev).correctCount
        answeredCount := (problemLoop (selectedProblems ps draw) ev).i
        out := (problemLoop (selectedProblems ps draw) ev).out ++
          [scoreLine (problemLoop (selectedProblems ps draw) ev).correctCount (min 5 ps.length),
            pressEnterLine]
        exitWait := finalReceive (problemLoop (selectedProblems ps draw) ev) } := by
  simp [main, selectedProblems, questionsToAsk_eq_min, randomizeProblems_length]

theorem runLoop_inv (selected : List Problem) (ev : Nat → Event) (P : Session → Prop)
    (hstep : ∀ s s', P s → step selected ev s = some s' → P s') :
    ∀ (fuel : Nat) (s : Session), P s → P (runLoop selected ev fuel s) := by
  intro fuel
  induction fuel with
  | zero => intro s hs; exact hs
  | succ n ih =>
    intro s hs
    cases h : step selected ev s with
    | none => rw [runLoop_of_step_none _ _ _ h]; exact hs
    | some s' => rw [runLoop_of_step_some _ _ _ _ h]; exact ih s' (hstep s s' hs h)

theorem step_counts (selected : List Problem) (ev : Nat → Event) (s s' : Session)
    (hs : s.correctCount ≤ s.i ∧ s.i ≤ selected.length)
    (h : step selected ev s = some s') :
    s'.correctCount ≤ s'.i ∧ s'.i ≤ selected.length := by
  unfold step at h
  split at h
  · exact absurd h (by simp)
  · split at h
    · exact absurd h (by simp)
    · next p hp =>
      have hlt : s.i < selected.length := (List.getElem?_eq_some.1 hp).1
      split at h
      · cases h
        exact ⟨hs.1, hs.2⟩
      · next a _ =>
        cases h
        by_cases ha : a = p.answer <;> by_cases hl : s.i = selected.length - 1 <;>
          simp [grade, ha, hl] <;> omega

theorem step_answered_eq (selected : List Problem) (ev : Nat → Event)
    (s : Session) (p : Problem) (a : String)
    (hrun : s.timedOut = false) (hp : selected[s.i]? = some p)
    (hev : ev s.i = Event.answered a) :
    step selected ev s = some
      { i := s.i + 1
        correctCount := s.correctCount + (if a = p.answer then 1 else 0)
        out := s.out ++ promptLine s.i p :: (if a = p.answer then [] else [wrongLine p])
        closed := s.closed || decide (s.i = selected.length - 1)
        readers := s.readers
        timedOut := false } := by
  unfold step
  simp only [hrun, hp, hev, Bool.false_eq_true, if_false]
  by_cases ha : a = p.answer <;> by_cases hl : s.i = selected.length - 1 <;>
    simp [grade, ha, hl, hrun]

theorem isCorrectAt_congr (selected : List Problem) (ev ev' : Nat → Event) (i : Nat)
    (h : ev' i = ev i) : isCorrectAt selected ev' i = isCorrectAt selected ev i := by
  simp [isCorrectAt, h]

theorem countCorrect_congr (selected : List Problem) (ev ev' : Nat → Event) (k : Nat)
    (h : ∀ i, i < k → ev' i = ev i) : countCorrect selected ev' k = countCorrect selected ev k := by
  induction k with
  | zero => rfl
  | succ n ih =>
    rw [countCorrect_succ, countCorrect_succ, ih (fun i hi => h i (by omega)),
      isCorrectAt_congr selected ev ev' n (h n (by omega))]

theorem transcript_congr (selected : List Problem) (ev ev' : Nat → Event) (k : Nat)
    (h : ∀ i, i < k → ev' i = ev i) : transcript selected ev' k = transcript selected ev k := by
  induction k with
  | zero => rfl
  | succ n ih =>
    rw [transcript_succ, transcript_succ, ih (fun i hi => h i (by omega))]
    simp [linesAt, h n (by omega)]

theorem main_timed_out (problems : List Problem) (draw : Nat → Nat) (ev : Nat → Event) (k : Nat)
    (hk : k < min 5 problems.length) (he : ev k = Event.timerFired)
    (hprev : ∀ i, i < k → ev i ≠ Event.timerFired) :
    problemLoop (selectedProblems problems draw) ev
      = timedOutState (selectedProblems problems draw) ev k
          ((selectedProblems problems draw).getD k default) := by
  have hk' : k < (selectedProblems problems draw).length := by
    rw [selectedProblems_length]; exact hk
  rw [problemLoop_timed_out _ ev k hk' he hprev, List.getD_eq_getElem _ _ hk']

theorem countCorrect_all_correct (selected : List Problem) (ev : Nat → Event) (n : Nat)
    (h : ∀ i, i < n → isCorrectAt selected ev i = true) : countCorrect selected ev n = n := by
  induction n with
  | zero => rfl
  | succ m ih =>
    rw [countCorrect_succ, ih (fun i hi => h i (by omega)), h m (by omega)]
    simp

theorem countCorrect_one_wrong (selected : List Problem) (ev : Nat → Event) (n k : Nat)
    (hk : k < n) (hwrong : isCorrectAt selected ev k = false)
    (h : ∀ i, i < n → i ≠ k → isCorrectAt selected ev i = true) :
    countCorrect selected ev n + 1 = n := by
  obtain ⟨m, rfl⟩ : ∃ m, n = k + 1 + m := ⟨n - (k + 1), by omega⟩
  have hk0 : countCorrect selected ev k = k :=
    countCorrect_all_correct selected ev k (fun i hi => h i (by omega) (by omega))
  have hk1 : countCorrect selected ev (k + 1) = k := by
    rw [countCorrect_succ, hk0, hwrong]; simp
  clear hk
  induction m with
  | zero => simp [hk1]
  | succ j ih =>
    have := ih (fun i hi hne => h i (by omega) hne)
    rw [show k + 1 + (j + 1) = (k + 1 + j) + 1 by omega, countCorrect_succ,
      h (k + 1 + j) (by omega) (by omega)]
    simp
    omega

theorem linesAt_subset_transcript (selected : List Problem) (ev : Nat → Event) (n k : Nat)
    (hk : k < n) (x : String) (hx : x ∈ linesAt selected ev k) :
    x ∈ transcript selected ev n := by
  unfold transcript
  simp only [List.flatMap, List.mem_flatten, List.mem_map, List.mem_range]
  exact ⟨_, ⟨k, hk, rfl⟩, hx⟩

theorem main_all_answered (problems : List Problem) (draw : Nat → Nat) (ev : Nat → Event)
    (h : ∀ i, i < min 5 problems.length → ev i ≠ Event.timerFired) :
    problemLoop (selectedProblems problems draw) ev
      = answeredState (selectedProblems problems draw) ev (min 5 problems.length) := by
  have := problemLoop_all_answered (selectedProblems problems draw) ev
    (fun i hi => h i (by rw [selectedProblems_length] at hi; exact hi))
  rw [selectedProblems_length] at this
  exact this

/-! ### Counting draw tables -/

theorem factorial_not_dvd_pow (n : Nat) (h : 3 ≤ n) : ¬ (n.factorial ∣ n ^ n) := by
  intro hdvd
  have h1 : (n - 1) ∣ n.factorial := Nat.dvd_factorial (by omega) (by omega)
  have h2 : (n - 1) ∣ n ^ n := Nat.dvd_trans h1 hdvd
  have hc : Nat.Coprime (n - 1) n := by
    rw [Nat.coprime_self_sub_left (by omega : 1 ≤ n)]
    exact Nat.coprime_one_left n
  have h3 : n - 1 = 1 := Nat.Coprime.eq_one_of_dvd (Nat.Coprime.pow_right n hc) h2
  omega

theorem sum_shuffleCount (problems : List Problem) :
    ∑ t ∈ problems.permutations.toFinset, shuffleCount problems t
      = problems.length ^ problems.length := by
  have hmap : ∀ d ∈ (Finset.univ : Finset (Fin problems.length → Fin problems.length)),
      randomizeProblems problems (drawsOf d) ∈ problems.permutations.toFinset := by
    intro d _
    rw [List.mem_toFinset, List.mem_permutations]
    exact shuffleLoop_perm _ _ _
  have := Finset.card_eq_sum_card_fiberwise hmap
  simp only [Finset.card_univ, Fintype.card_fun, Fintype.card_fin] at this
  rw [this]
  rfl

theorem card_arrangements (problems : List Problem) (hnd : problems.Nodup) :
    problems.permutations.toFinset.card = problems.length.factorial := by
  rw [List.toFinset_card_of_nodup (List.nodup_permutations problems hnd),
    List.length_permutations]

/-! ### Termination of the loop and the final receive -/

theorem problemOfRecord_eq (line : List String) :
    problemOfRecord line
      = if line.length = 2 then { question := line.getD 0 "", answer := line.getD 1 "" }
        else { question := "", answer := "" } := by
  match line with
  | [] => rfl
  | [_] => rfl
  | [_, _] => rfl
  | _ :: _ :: _ :: _ => simp [problemOfRecord]

theorem step_progress (selected : List Problem) (ev : Nat → Event) (s s' : Session)
    (h : step selected ev s = some s') : s'.timedOut = true ∨ s'.i = s.i + 1 := by
  unfold step at h
  split at h
  · exact absurd h (by simp)
  · split at h
    · exact absurd h (by simp)
    · next p _ =>
      split at h
      · cases h; exact Or.inl rfl
      · cases h; exact Or.inr rfl

theorem runLoop_halts (selected : List Problem) (ev : Nat → Event) :
    ∀ (fuel : Nat) (s : Session), (s.timedOut = true ∨ selected.length ≤ s.i + fuel) →
      step selected ev (runLoop selected ev fuel s) = none := by
  intro fuel
  induction fuel with
  | zero =>
    intro s hs
    rcases hs with hs | hs
    · simp [runLoop, step, hs]
    · have : selected[s.i]? = none := List.getElem?_eq_none (by omega)
      simp [runLoop, step, this]
  | succ n ih =>
    intro s hs
    cases h : step selected ev s with
    | none => rw [runLoop_of_step_none _ _ _ h]; exact h
    | some s' =>
      rw [runLoop_of_step_some _ _ _ _ h]
      apply ih
      rcases step_progress selected ev s s' h with h1 | h1
      · exact Or.inl h1
      · rcases hs with hs | hs
        · simp [step, hs] at h
        · right; omega

/-- The fuel given to the loop is enough: whatever the events, the state returned by
`problemLoop` is one in which the loop is over. -/
theorem problemLoop_halts (selected : List Problem) (ev : Nat → Event) :
    step selected ev (problemLoop selected ev) = none :=
  runLoop_halts selected ev selected.length Session.init (Or.inr (by simp [Session.init]))

/-- The states `runLoop selected ev n Session.init` are closed under `step`: they are
exactly the states the loop passes through. -/
theorem runLoop_step_closed (selected : List Problem) (ev : Nat → Event) (n : Nat)
    (s' : Session) (h : step selected ev (runLoop selected ev n Session.init) = some s') :
    runLoop selected ev (n + 1) Session.init = s' := by
  rw [runLoop_add]
  simp [runLoop, h]

/-- The final receive after a round in which every question was answered: the
channel has been closed by the last iteration. -/
theorem exitWait_all_answered (problems : List Problem) (draw : Nat → Nat) (ev : Nat → Event)
    (hN : 0 < problems.length)
    (h : ∀ i, i < min 5 problems.length → ev i ≠ Event.timerFired) :
    (main problems draw ev).exitWait = ExitWait.returnsAtOnce := by
  rw [main_eq]
  simp only [main_all_answered problems draw ev h, answeredState, finalReceive,
    selectedProblems_length]
  have : 0 < min 5 problems.length := by omega
  simp [this]

/-- The final receive after the timer was taken: the abandoned reader goroutine
delivers the next line. -/
theorem exitWait_timed_out (problems : List Problem) (draw : Nat → Nat) (ev : Nat → Event)
    (k : Nat) (hk : k < min 5 problems.length) (he : ev k = Event.timerFired)
    (hprev : ∀ i, i < k → ev i ≠ Event.timerFired) :
    (main problems draw ev).exitWait = ExitWait.waitsForLine := by
  rw [main_eq]
  simp [main_timed_out problems draw ev k hk he hprev, timedOutState, finalReceive]

/-- The final receive for an empty problem set: nothing was closed and no reader
goroutine exists. -/
theorem exitWait_empty (draw : Nat → Nat) (ev : Nat → Event) :
    (main [] draw ev).exitWait = ExitWait.blocksForever := rfl

/-- For three distinct problems the 27 draw tables split 4, 5, 5, 5, 4, 4 over the
six arrangements. -/
theorem threeProblems_counts :
    shuffleCount threeProblems [⟨"a", "1"⟩, ⟨"b", "2"⟩, ⟨"c", "3"⟩] = 4 ∧
    shuffleCount threeProblems [⟨"a", "1"⟩, ⟨"c", "3"⟩, ⟨"b", "2"⟩] = 5 ∧
    shuffleCount threeProblems [⟨"b", "2"⟩, ⟨"a", "1"⟩, ⟨"c", "3"⟩] = 5 ∧
    shuffleCount threeProblems [⟨"b", "2"⟩, ⟨"c", "3"⟩, ⟨"a", "1"⟩] = 5 ∧
    shuffleCount threeProblems [⟨"c", "3"⟩, ⟨"a", "1"⟩, ⟨"b", "2"⟩] = 4 ∧
    shuffleCount threeProblems [⟨"c", "3"⟩, ⟨"b", "2"⟩, ⟨"a", "1"⟩] = 4 := by decide

/-! ## The claims -/

/-- Claim C1: the questions selected by `main` are the first `min 5 N` problems of
the shuffled set, in shuffled order, whatever the draws of the shuffle (and
whatever happens later in the session); so 5 questions are selected when `N ≥ 5`
and `N` questions when `N < 5`. -/
theorem main_selects_first_of_shuffled (problems : List Problem) (draw : Nat → Nat)
    (ev : Nat → Event) :
    (main problems draw ev).selected
        = (randomizeProblems problems draw).take (min 5 problems.length) ∧
    (main problems draw ev).selected.length = min 5 problems.length ∧
    (main problems draw ev).selected.length
        = (if 5 ≤ problems.length then 5 else problems.length) := by
  rw [main_eq]
  refine ⟨selectedProblems_eq_take _ _, selectedProblems_length _ _, ?_⟩
  simp only [selectedProblems_length]
  split <;> omega

/-- Claim C2: when no timer event is taken before all `min 5 N` selected questions
are answered, `main` receives `min 5 N` answers, its final `correctCount` is the
number of selected questions whose supplied answer equals the expected one, and it
prints the transcript of the questions followed by
`You scored <that number> out of <min 5 N>` and `Press Enter to exit...`.  For a
file of five records: supplying every expected answer prints
`You scored 5 out of 5`, and exactly one wrong answer (at question `k`) prints
`You scored 4 out of 5` together with the correction line of question `k`. -/
theorem full_round_score (problems : List Problem) (draw : Nat → Nat) (ev : Nat → Event)
    (h : ∀ i, i < min 5 problems.length → ev i ≠ Event.timerFired) :
    (main problems draw ev).answeredCount = min 5 problems.length ∧
    (main problems draw ev).correctCount
      = countCorrect (selectedProblems problems draw) ev (min 5 problems.length) ∧
    (main problems draw ev).out
      = transcript (selectedProblems problems draw) ev (min 5 problems.length) ++
        [scoreLine (countCorrect (selectedProblems problems draw) ev (min 5 problems.length))
          (min 5 problems.length), pressEnterLine] ∧
    (problems.length = 5 →
      (∀ i, i < 5 → isCorrectAt (selectedProblems problems draw) ev i = true) →
      (main problems draw ev).out
        = transcript (selectedProblems problems draw) ev 5 ++
          ["You scored 5 out of 5\n", pressEnterLine]) ∧
    (problems.length = 5 → ∀ k, k < 5 →
      isCorrectAt (selectedProblems problems draw) ev k = false →
      (∀ i, i < 5 → i ≠ k → isCorrectAt (selectedProblems problems draw) ev i = true) →
      (main problems draw ev).out
        = transcript (selectedProblems problems draw) ev 5 ++
          ["You scored 4 out of 5\n", pressEnterLine] ∧
      wrongLine ((selectedProblems problems draw).getD k default)
        ∈ (main problems draw ev).out) := by
  have hl := main_all_answered problems draw ev h
  have hout : (main problems draw ev).out
      = transcript (selectedProblems problems draw) ev (min 5 problems.length) ++
        [scoreLine (countCorrect (selectedProblems problems draw) ev (min 5 problems.length))
          (min 5 problems.length), pressEnterLine] := by
    rw [main_eq]; simp only [hl, answeredState]
  refine ⟨?_, ?_, hout, ?_, ?_⟩
  · rw [main_eq]; simp only [hl, answeredState]
  · rw [main_eq]; simp only [hl, answeredState]
  · intro h5 hall
    rw [hout, h5]
    have hc := countCorrect_all_correct (selectedProblems problems draw) ev 5 hall
    simp only [Nat.min_self, hc]
    rfl
  · intro h5 k hk hwrong hothers
    have hc := countCorrect_one_wrong (selectedProblems problems draw) ev 5 k hk hwrong hothers
    have hc4 : countCorrect (selectedProblems problems draw) ev 5 = 4 := by omega
    have hk' : k < (selectedProblems problems draw).length := by
      rw [selectedProblems_length, h5]; exact hk
    have hne : ev k ≠ Event.answered ((selectedProblems problems draw)[k]).answer := by
      intro he
      simp [isCorrectAt, List.getElem?_eq_getElem hk', he] at hwrong
    rw [hout, h5]
    simp only [Nat.min_self, hc4]
    refine ⟨rfl, ?_⟩
    apply List.mem_append_left
    apply linesAt_subset_transcript _ _ 5 k hk
    simp [linesAt, List.getElem?_eq_getElem hk', hne, List.getD_eq_getElem _ _ hk']

/-- The end-to-end examples: the five-record file, presented in the order given by
`sampleDraw`; with every expected answer the whole output ends in
`You scored 5 out of 5`; with `5` supplied for `2+2` the correction line is printed
and the score is 4 out of 5. -/
theorem full_round_score_witness :
    (main quizFile sampleDraw (answering ["2", "18", "10", "4", "6"])).out
      = ["Problem #1: 1+1 = ", "Problem #2: 9+9 = ", "Problem #3: 5+5 = ", "Problem #4: 2+2 = ",
          "Problem #5: 3+3 = ", "You scored 5 out of 5\n", "Press Enter to exit...\n"] ∧
    (main quizFile sampleDraw (answering ["2", "18", "10", "5", "6"])).out
      = transcript (selectedProblems quizFile sampleDraw)
          (answering ["2", "18", "10", "5", "6"]) 5 ++
        ["You scored 4 out of 5\n", pressEnterLine] ∧
    "Wrong! The correct answer is 4\n"
      ∈ (main quizFile sampleDraw (answering ["2", "18", "10", "5", "6"])).out := by
  have h1 := (full_round_score quizFile sampleDraw (answering ["2", "18", "10", "4", "6"])
    (by decide)).2.2.2.1 (by decide) (by decide)
  have h2 := (full_round_score quizFile sampleDraw (answering ["2", "18", "10", "5", "6"])
    (by decide)).2.2.2.2 (by decide) 3 (by decide) (by decide) (by decide)
  refine ⟨?_, h2.1, h2.2⟩
  rw [h1]; decide

/-- Claim C3: in a loop iteration whose `select` takes the answer `a` for the
problem `p`, grading is by exact string equality: `correctCount` grows by one
exactly when `a = p.answer`, in which case nothing is printed after the prompt;
otherwise `correctCount` is unchanged and the line
`Wrong! The correct answer is <p.answer>` is printed.  For the expected answer `4`:
`4` is graded correct, `4.0` and ` 4` are graded wrong. -/
theorem step_grades_by_exact_equality (selected : List Problem) (ev : Nat → Event)
    (s : Session) (p : Problem) (a : String)
    (hrun : s.timedOut = false) (hp : selected[s.i]? = some p)
    (hev : ev s.i = Event.answered a) :
    (∃ s', step selected ev s = some s' ∧
      s'.correctCount = s.correctCount + (if a = p.answer then 1 else 0) ∧
      s'.out = s.out ++ promptLine s.i p ::
        (if a = p.answer then [] else ["Wrong! The correct answer is " ++ p.answer ++ "\n"])) ∧
    (grade { question := "2+2", answer := "4" } "4" Session.init).correctCount = 1 ∧
    (grade { question := "2+2", answer := "4" } "4" Session.init).out = [] ∧
    (grade { question := "2+2", answer := "4" } "4.0" Session.init).correctCount = 0 ∧
    (grade { question := "2+2", answer := "4" } "4.0" Session.init).out
      = ["Wrong! The correct answer is 4\n"] ∧
    (grade { question := "2+2", answer := "4" } " 4" Session.init).correctCount = 0 ∧
    (grade { question := "2+2", answer := "4" } " 4" Session.init).out
      = ["Wrong! The correct answer is 4\n"] := by
  refine ⟨⟨_, step_answered_eq selected ev s p a hrun hp hev, rfl, rfl⟩,
    by decide, by decide, by decide, by decide, by decide, by decide⟩

/-- The first iteration on the five-record file in file order, answered `4.0`
where `4` is expected: no point, and the correction line follows the prompt. -/
theorem step_grades_by_exact_equality_witness :
    ∃ s', step quizFile (answering ["4.0"]) Session.init = some s' ∧
      s'.correctCount = 0 ∧
      s'.out = ["Problem #1: 2+2 = ", "Wrong! The correct answer is 4\n"] := by
  obtain ⟨s', h1, h2, h3⟩ :=
    (step_grades_by_exact_equality quizFile (answering ["4.0"]) Session.init
      { question := "2+2", answer := "4" } "4.0" (by decide) (by decide) (by decide)).1
  refine ⟨s', h1, ?_, ?_⟩
  · rw [h2]; decide
  · rw [h3]; decide

/-- Claim C4: when the timer event is taken while question `k` (counted from 0)
awaits its answer, only `k` answers have been received, yet the total printed in
`You scored X out of Y` is the number of selected questions `min 5 N`; and when
the timer is taken before any answer (`k = 0`), `X = 0` and the report is
`You scored 0 out of <min 5 N>`. -/
theorem timeout_total_is_selected_count (problems : List Problem) (draw : Nat → Nat)
    (ev : Nat → Event) (k : Nat)
    (hk : k < min 5 problems.length) (he : ev k = Event.timerFired)
    (hprev : ∀ i, i < k → ev i ≠ Event.timerFired) :
    (main problems draw ev).answeredCount = k ∧
    (main problems draw ev).selected.length = min 5 problems.length ∧
    (main problems draw ev).out
      = transcript (selectedProblems problems draw) ev k ++
        [promptLine k ((selectedProblems problems draw).getD k default), "\n",
          scoreLine (main problems draw ev).correctCount (min 5 problems.length),
          pressEnterLine] ∧
    (k = 0 → (main problems draw ev).correctCount = 0 ∧
      (main problems draw ev).out
        = [promptLine 0 ((selectedProblems problems draw).getD 0 default), "\n",
            scoreLine 0 (min 5 problems.length), pressEnterLine]) := by
  have hl := main_timed_out problems draw ev k hk he hprev
  rw [main_eq]
  simp only [hl, timedOutState, selectedProblems_length]
  refine ⟨trivial, trivial, by simp, ?_⟩
  intro h0
  subst h0
  simp [countCorrect, transcript, List.flatMap]

/-- The five-record file with the timer taken at the first question: nothing is
answered, and the report is still out of 5. -/
theorem timeout_total_is_selected_count_witness :
    (main quizFile sampleDraw (timerAt 0 [])).correctCount = 0 ∧
    (main quizFile sampleDraw (timerAt 0 [])).answeredCount = 0 ∧
    (main quizFile sampleDraw (timerAt 0 [])).out
      = ["Problem #1: 1+1 = ", "\n", "You scored 0 out of 5\n", "Press Enter to exit...\n"] := by
  obtain ⟨h1, _, _, h4⟩ := timeout_total_is_selected_count quizFile sampleDraw (timerAt 0 []) 0
    (by decide) (by decide) (by decide)
  obtain ⟨h5, h6⟩ := h4 rfl
  refine ⟨h5, h1, ?_⟩
  rw [h6]; decide

/-- Claim C5: once the timer event is taken while question `k` (counted from 0, so
after `k` answers) awaits its answer, the loop is over: the final state admits no
further iteration, `correctCount` is the number of correct answers among the first
`k`, the output is the transcript of the first `k` questions, the prompt of
question `k`, a newline, and directly the score report and the exit prompt (no
later question is prompted), and the events after `k` have no influence on the run. -/
theorem timer_ends_session (problems : List Problem) (draw : Nat → Nat)
    (ev : Nat → Event) (k : Nat)
    (hk : k < min 5 problems.length) (he : ev k = Event.timerFired)
    (hprev : ∀ i, i < k → ev i ≠ Event.timerFired) :
    step (selectedProblems problems draw) ev (problemLoop (selectedProblems problems draw) ev)
      = none ∧
    (main problems draw ev).answeredCount = k ∧
    (main problems draw ev).correctCount = countCorrect (selectedProblems problems draw) ev k ∧
    (main problems draw ev).out
      = transcript (selectedProblems problems draw) ev k ++
        [promptLine k ((selectedProblems problems draw).getD k default), "\n",
          scoreLine (countCorrect (selectedProblems problems draw) ev k) (min 5 problems.length),
          pressEnterLine] ∧
    (∀ ev' : Nat → Event, (∀ i, i ≤ k → ev' i = ev i) →
      main problems draw ev' = main problems draw ev) := by
  have hl := main_timed_out problems draw ev k hk he hprev
  refine ⟨?_, ?_, ?_, ?_, ?_⟩
  · rw [hl]; exact step_timedOutState _ _ _ _
  · rw [main_eq]; simp only [hl, timedOutState]
  · rw [main_eq]; simp only [hl, timedOutState]
  · rw [main_eq]; simp [hl, timedOutState]
  · intro ev' hev'
    have hl' := main_timed_out problems draw ev' k hk (by rw [hev' k (Nat.le_refl k)]; exact he)
      (fun i hi => by rw [hev' i (by omega)]; exact hprev i hi)
    rw [main_eq, main_eq, hl, hl']
    simp only [timedOutState]
    rw [countCorrect_congr _ ev ev' k (fun i hi => hev' i (by omega)),
      transcript_congr _ ev ev' k (fun i hi => hev' i (by omega))]

/-- The five-record file with two answers (one right, one wrong) and the timer
taken at the third question: the answers that would have followed are never
graded and no fourth question is prompted. -/
theorem timer_ends_session_witness :
    (main quizFile sampleDraw (timerAt 2 ["2", "7", "10", "4", "6"])).answeredCount = 2 ∧
    (main quizFile sampleDraw (timerAt 2 ["2", "7", "10", "4", "6"])).correctCount = 1 ∧
    (main quizFile sampleDraw (timerAt 2 ["2", "7", "10", "4", "6"])).out
      = ["Problem #1: 1+1 = ", "Problem #2: 9+9 = ", "Wrong! The correct answer is 18\n",
          "Problem #3: 5+5 = ", "\n", "You scored 1 out of 5\n", "Press Enter to exit...\n"] := by
  obtain ⟨_, h2, h3, h4, _⟩ := timer_ends_session quizFile sampleDraw
    (timerAt 2 ["2", "7", "10", "4", "6"]) 2 (by decide) (by decide) (by decide)
  refine ⟨h2, ?_, ?_⟩
  · rw [h3]; decide
  · rw [h4]; decide

/-- Claim C6: in every state the problem loop passes through (the state after any
number `n` of iterations, for every problem set, draws and events, timer events
included), `correctCount` is at most the number of answers received so far, which
is at most the number of selected questions; the same holds of the final counts of
`main`. -/
theorem loop_counts_bounded (problems : List Problem) (draw : Nat → Nat) (ev : Nat → Event)
    (n : Nat) :
    (runLoop (selectedProblems problems draw) ev n Session.init).correctCount
        ≤ (runLoop (selectedProblems problems draw) ev n Session.init).i ∧
    (runLoop (selectedProblems problems draw) ev n Session.init).i
        ≤ (selectedProblems problems draw).length ∧
    (main problems draw ev).correctCount ≤ (main problems draw ev).answeredCount ∧
    (main problems draw ev).answeredCount ≤ (main problems draw ev).selected.length := by
  have hinv : ∀ m : Nat,
      (runLoop (selectedProblems problems draw) ev m Session.init).correctCount
        ≤ (runLoop (selectedProblems problems draw) ev m Session.init).i ∧
      (runLoop (selectedProblems problems draw) ev m Session.init).i
        ≤ (selectedProblems problems draw).length := by
    intro m
    apply runLoop_inv (selectedProblems problems draw) ev
      (fun s => s.correctCount ≤ s.i ∧ s.i ≤ (selectedProblems problems draw).length)
    · intro s s' hs h
      exact step_counts _ _ s s' hs h
    · simp [Session.init]
  refine ⟨(hinv n).1, (hinv n).2, ?_, ?_⟩
  · rw [main_eq]; exact (hinv _).1
  · rw [main_eq]; exact (hinv _).2

/-- Claim C7: `parseProblem` returns as many problems as it is given records, and
at every index the output is the problem made of the two fields of the record at
that index when the record has exactly two fields, the blank problem otherwise;
so the output is the record-by-record image of the input and no record shifts
another. -/
theorem parseProblem_keeps_positions (lines : List (List String)) :
    (parseProblem lines).length = lines.length ∧
    (∀ i : Nat, (parseProblem lines)[i]? = (lines[i]?).map (fun line =>
      if line.length = 2 then { question := line.getD 0 "", answer := line.getD 1 "" }
      else { question := "", answer := "" })) ∧
    parseProblem lines = lines.map problemOfRecord := by
  have h := parseProblem_eq_map lines
  refine ⟨by rw [h, List.length_map], ?_, h⟩
  intro i
  rw [h, List.getElem?_map]
  cases lines[i]? with
  | none => rfl
  | some line => simp only [Option.map_some', problemOfRecord_eq]

/-- Claim C8: whatever indices are drawn, `randomizeProblems` returns a list of
the same length that is a permutation of its input (same multiset: nothing lost,
nothing duplicated); moreover the output reads the input at a list of positions
that is itself a permutation of `0, ..., N-1`, so no input position occurs twice.
In-range draws, the only ones `r.Intn` produces, are a special case. -/
theorem randomizeProblems_permutation (problems : List Problem) (draw : Nat → Nat) :
    (randomizeProblems problems draw).length = problems.length ∧
    (randomizeProblems problems draw).Perm problems ∧
    ∃ positions : List Nat, positions.Perm (List.range problems.length) ∧
      randomizeProblems problems draw = positions.map (fun k => problems.getD k default) := by
  refine ⟨randomizeProblems_length _ _, shuffleLoop_perm _ _ _,
    shuffleLoop draw problems.length (List.range problems.length), shuffleLoop_perm _ _ _, ?_⟩
  rw [← shuffleLoop_map, map_getD_range]
  rfl

/-- Claim C9, evaluated on the code: after a round in which the single question
of a one-record file is answered, the channel has been closed by the last
iteration, so the final receive returns at once and no further line is consumed;
the same happens after the full five-question round.  On the timer path the final
receive does wait for one more line, and for an empty problem set it never
completes. -/
theorem exit_wait_by_path :
    main [{ question := "2+2", answer := "4" }] (fun _ => 0) (answering ["4"])
      = { selected := [{ question := "2+2", answer := "4" }]
          correctCount := 1
          answeredCount := 1
          out := ["Problem #1: 2+2 = ", "You scored 1 out of 1\n", "Press Enter to exit...\n"]
          exitWait := ExitWait.returnsAtOnce } ∧
    (main quizFile sampleDraw (answering ["2", "18", "10", "4", "6"])).exitWait
      = ExitWait.returnsAtOnce ∧
    (main [{ question := "2+2", answer := "4" }] (fun _ => 0) (timerAt 0 [])).exitWait
      = ExitWait.waitsForLine ∧
    (main [] (fun _ => 0) (answering [])).exitWait = ExitWait.blocksForever := by
  decide

/-- Claim C10: for at least three pairwise distinct problems, let
`shuffleCount problems t` be the number of the `N ^ N` tables of in-range draws
that make `randomizeProblems` produce the arrangement `t`.  These counts add up to
`N ^ N` over the `N!` arrangements, they are not all equal, and so some
arrangement is produced by strictly more draw tables than another. -/
theorem shuffle_not_uniform (problems : List Problem) (hN : 3 ≤ problems.length)
    (hnd : problems.Nodup) :
    (∑ t ∈ problems.permutations.toFinset, shuffleCount problems t
      = problems.length ^ problems.length) ∧
    problems.permutations.toFinset.card = problems.length.factorial ∧
    (¬ ∃ c : Nat, ∀ t : List Problem, t.Perm problems → shuffleCount problems t = c) ∧
    (∃ t₁ t₂ : List Problem, t₁.Perm problems ∧ t₂.Perm problems ∧
      shuffleCount problems t₁ < shuffleCount problems t₂) := by
  have hsum := sum_shuffleCount problems
  have hcard := card_arrangements problems hnd
  have hnot : ¬ ∃ c : Nat, ∀ t : List Problem, t.Perm problems → shuffleCount problems t = c := by
    rintro ⟨c, hc⟩
    have h1 : ∑ t ∈ problems.permutations.toFinset, shuffleCount problems t
        = ∑ _t ∈ problems.permutations.toFinset, c := by
      apply Finset.sum_congr rfl
      intro t ht
      rw [List.mem_toFinset, List.mem_permutations] at ht
      exact hc t ht
    rw [hsum, Finset.sum_const, hcard, smul_eq_mul] at h1
    exact factorial_not_dvd_pow _ hN ⟨c, h1⟩
  refine ⟨hsum, hcard, hnot, ?_⟩
  by_contra hno
  apply hnot
  refine ⟨shuffleCount problems problems, ?_⟩
  intro t ht
  have h1 : ¬ shuffleCount problems t < shuffleCount problems problems := fun hlt =>
    hno ⟨t, problems, ht, List.Perm.refl _, hlt⟩
  have h2 : ¬ shuffleCount problems problems < shuffleCount problems t := fun hlt =>
    hno ⟨problems, t, List.Perm.refl _, ht, hlt⟩
  omega

/-- Three distinct problems: of the 27 draw tables, some arrangement receives
strictly more than another. -/
theorem shuffle_not_uniform_witness :
    ∃ t₁ t₂ : List Problem, t₁.Perm threeProblems ∧ t₂.Perm threeProblems ∧
      shuffleCount threeProblems t₁ < shuffleCount threeProblems t₂ :=
  (shuffle_not_uniform threeProblems (by decide) (by decide)).2.2.2

end Quiz
